import Mathlib

/-!
Shallow embedding of the prosody analysis engine of the MirrorAccent
repository (source: src/js/prosody.js, class ProsodyAnalyzer).

Conventions of the embedding:
* JS numbers are modelled by an arbitrary linear ordered field where the
  code only performs field operations and comparisons (the comparator, the
  DTW machinery and the YIN pitch tracker), and by the real numbers where
  the source calls transcendental library functions (Math.cos, Math.log10,
  Math.sqrt, Math.atan2, Math.log).  Floating point rounding is not
  modelled: arithmetic is exact, the standard convention for this code.
* The one place where an IEEE NaN is semantically load bearing is the
  cumulative mean normalized difference function of the YIN tracker: on an
  all zero frame every difference value is 0 and the JS expression
  diff[tau] / (runningSum / tau) evaluates to NaN, so every comparison
  against it is false and the frame is reported unvoiced.  The embedding
  models this value as an Option, none standing for NaN, with the JS
  comparison semantics (any comparison with NaN is false).
* Division by zero follows the Lean convention x / 0 = 0 in the remaining
  spots; no theorem below depends on such a corner.
* JS loops over frames (for i = 0; i + frameSize < len; i += hop) are
  modelled by frameStarts.  For hop = 0 the JS loop would not terminate;
  the model returns the empty list there and the theorems that quantify
  over sample rates assume sampleRate at least 100 Hz, which makes the
  10 ms hop at least one sample (decoded audio is always at least 8 kHz).
-/

namespace MirrorAccent

/-- Arithmetic mean, 0 on the empty list (ProsodyAnalyzer.mean). -/
def mean {α : Type} [LinearOrderedField α] (arr : List α) : α :=
  if arr.length = 0 then 0 else arr.sum / (arr.length : α)

/-- Population variance about the mean (ProsodyAnalyzer.calculateVariance). -/
def calculateVariance {α : Type} [LinearOrderedField α] (arr : List α) : α :=
  (arr.map (fun v => (v - mean arr) * (v - mean arr))).sum / (arr.length : α)

/-- Minimum of a list, as JS Math.min applied to a spread argument list;
the value on the empty list is irrelevant to every use below. -/
def listMin {α : Type} [LinearOrderedField α] : List α → α
  | [] => 0
  | x :: xs => xs.foldl min x

/-- Maximum of a list, as JS Math.max applied to a spread argument list. -/
def listMax {α : Type} [LinearOrderedField α] : List α → α
  | [] => 0
  | x :: xs => xs.foldl max x

/-- Min max normalization to [0,1] (ProsodyAnalyzer.normalize); a zero
range is replaced by 1, mirroring the JS expression max - min || 1. -/
def normalize {α : Type} [LinearOrderedField α] (arr : List α) : List α :=
  let mn := listMin arr
  let mx := listMax arr
  let range := if mx - mn = 0 then 1 else mx - mn
  arr.map (fun v => (v - mn) / range)

/-- Linear interpolation resampling (ProsodyAnalyzer.resample).  The JS
index computation floor(i * arr.length / targetLen) and the fractional
part are carried out exactly with natural number division and remainder. -/
def resample {α : Type} [LinearOrderedField α] (arr : List α) (targetLen : ℕ) : List α :=
  if arr.length = targetLen then arr else
  (List.range targetLen).map (fun i =>
    let lower := i * arr.length / targetLen
    let upper := min (lower + 1) (arr.length - 1)
    let frac : α := ((i * arr.length % targetLen : ℕ) : α) / (targetLen : α)
    arr.getD lower 0 * (1 - frac) + arr.getD upper 0 * frac)

/-- JS Array.prototype.slice(s, e) on a list. -/
def sliceJS {α : Type} (l : List α) (s e : ℕ) : List α :=
  (l.drop s).take (e - s)

/-- Centered moving average smoothing (ProsodyAnalyzer.movingAverage). -/
def movingAverage {α : Type} [LinearOrderedField α] (arr : List α) (windowSize : ℕ) : List α :=
  (List.range arr.length).map (fun i =>
    let start := i - windowSize / 2
    let stop := min arr.length (i + (windowSize + 1) / 2)
    mean (sliceJS arr start stop))

/-- Start indices of the analysis frames: the JS loop
for (i = 0; i + frameSize < len; i += hop).  A zero hop would loop
forever in JS; the model returns no frames in that case. -/
def frameStarts (len frameSize hop i : ℕ) : List ℕ :=
  if h : hop = 0 then []
  else if h2 : i + frameSize < len then i :: frameStarts len frameSize hop (i + hop)
  else []
termination_by len - i
decreasing_by omega

/-- Accumulated cost matrix of dynamic time warping over two lists, with
absolute difference as the per cell cost and the standard three neighbor
recurrence; row and column 0 are initialised to Infinity except the
origin, modelled by WithTop (ProsodyAnalyzer.dtwSimilarity, inner loops). -/
def dtwMat {α : Type} [LinearOrderedField α] (a b : List α) : ℕ → ℕ → WithTop α
  | 0, 0 => 0
  | 0, _ + 1 => ⊤
  | _ + 1, 0 => ⊤
  | i + 1, j + 1 =>
      (↑|a.getD i 0 - b.getD j 0| : WithTop α) +
        min (dtwMat a b i (j + 1)) (min (dtwMat a b (i + 1) j) (dtwMat a b i j))
termination_by i j => (i, j)

/-- Conversion of the accumulated DTW cost to a similarity,
1 - min(1, cost / maxDist); an infinite cost behaves like JS Infinity,
where min(1, Infinity / maxDist) = 1. -/
def dtwFinalize {α : Type} [LinearOrderedField α] (c : WithTop α) (maxDist : ℕ) : α :=
  match c with
  | none => 1
  | some q => min 1 (q / (maxDist : α))

/-- Dynamic time warping similarity (ProsodyAnalyzer.dtwSimilarity):
resample both sequences to at most 100 points, min max normalize each, run
the DTW recurrence and convert the final cost to a similarity in [0,1];
an empty input yields 0. -/
def dtwSimilarity {α : Type} [LinearOrderedField α] (seq1 seq2 : List α) : α :=
  if seq1.length = 0 ∨ seq2.length = 0 then 0 else
  let n := min seq1.length 100
  let m := min seq2.length 100
  let s1 := resample seq1 n
  let s2 := resample seq2 m
  let ns1 := normalize s1
  let ns2 := normalize s2
  let maxDist := max n m
  1 - dtwFinalize (dtwMat ns1 ns2 n m) maxDist

/-! Data model: the contours and the feature bundle (spec section 3),
with the field names of the JS objects. -/

/-- F0 contour: per frame fundamental frequency (0 = unvoiced), frame
times, and the constant frame rate 1000 / 10. -/
structure F0Contour (α : Type) where
  values : List α
  times : List α
  frameRate : α

/-- One formant series with the mean of its positive entries. -/
structure FormantSeries (α : Type) where
  values : List α
  mean : α

/-- Formant contour: the three parallel series F1, F2, F3 and the frame
times. -/
structure FormantContour (α : Type) where
  f1 : FormantSeries α
  f2 : FormantSeries α
  f3 : FormantSeries α
  times : List α

/-- Intensity contour: per frame energy in dB, frame times, mean and
dynamic range. -/
structure IntensityContour (α : Type) where
  values : List α
  times : List α
  mean : α
  range : α

/-- Speaking rate estimate. -/
structure SpeakingRateData (α : Type) where
  syllablesPerSecond : α
  estimatedSyllables : ℕ
  duration : α

/-- Pitch range statistics over the voiced F0 values. -/
structure PitchRangeData (α : Type) where
  min : α
  max : α
  mean : α
  variance : α

/-- Feature bundle produced by analyzeAudio for one buffer. -/
structure Features (α : Type) where
  f0 : F0Contour α
  formants : FormantContour α
  intensity : IntensityContour α
  duration : α
  speakingRate : SpeakingRateData α
  pitchRange : Option (PitchRangeData α)

/-- Score set produced by compareProsody. -/
structure Scores (α : Type) where
  f0 : α
  formants : α
  intensity : α
  speakingRate : α
  pitchRange : α
  duration : α
  overall : α

/-! YIN pitch tracker (ProsodyAnalyzer.yinPitchDetection and
extractF0Contour).  The CMNDF value is an Option, none standing for the
IEEE NaN produced by 0/0 on frames whose difference function vanishes
identically; the jsLt / jsGe helpers implement the JS comparison
semantics, under which every comparison with NaN is false. -/

/-- JS comparison o < x where o may be NaN (none). -/
def jsLtO {α : Type} [LinearOrderedField α] (o : Option α) (x : α) : Bool :=
  match o with
  | some v => decide (v < x)
  | none => false

/-- JS comparison a < b where both sides may be NaN (none). -/
def jsLtOO {α : Type} [LinearOrderedField α] (a b : Option α) : Bool :=
  match a, b with
  | some x, some y => decide (x < y)
  | _, _ => false

/-- JS comparison o >= x where o may be NaN (none). -/
def jsGeO {α : Type} [LinearOrderedField α] (o : Option α) (x : α) : Bool :=
  match o with
  | some v => decide (x ≤ v)
  | none => false

/-- Inner descent of the YIN threshold search: starting from the first
lag below threshold, advance while the CMNDF keeps strictly decreasing
(the inner while loop of yinPitchDetection). -/
def yinDescend {α : Type} [LinearOrderedField α] (c : ℕ → Option α) (maxLag tau : ℕ) : ℕ :=
  if h : tau + 1 < maxLag ∧ jsLtOO (c (tau + 1)) (c tau) = true then
    yinDescend c maxLag (tau + 1)
  else tau
termination_by maxLag - tau
decreasing_by omega

/-- Outer scan of the YIN threshold search: advance tau until the CMNDF
drops below the threshold, then descend to the local minimum (the outer
while loop of yinPitchDetection). -/
def yinSearch {α : Type} [LinearOrderedField α]
    (c : ℕ → Option α) (threshold : α) (maxLag tau : ℕ) : ℕ :=
  if h : tau < maxLag - 1 then
    if jsLtO (c tau) threshold = true then yinDescend c maxLag tau
    else yinSearch c threshold maxLag (tau + 1)
  else tau
termination_by maxLag - 1 - tau
decreasing_by omega

/-- Squared difference function of one YIN frame,
diff[tau] = sum over i < n - tau of (frame[i] - frame[i+tau])^2. -/
def yinDiff {α : Type} [LinearOrderedField α] (frame : List α) (tau : ℕ) : α :=
  ((List.range (frame.length - tau)).map (fun i =>
    let delta := frame.getD i 0 - frame.getD (i + tau) 0
    delta * delta)).sum

/-- Running sum of the difference function over lags 1..tau. -/
def yinRunningSum {α : Type} [LinearOrderedField α] (frame : List α) (tau : ℕ) : α :=
  ((List.range tau).map (fun t => yinDiff frame (t + 1))).sum

/-- Cumulative mean normalized difference function,
cmndf[tau] = diff[tau] / (runningSum[tau] / tau), with cmndf[0] = 1.  On a
lag whose running sum vanishes the JS expression is 0/0 = NaN, modelled
as none. -/
def yinCmndf {α : Type} [LinearOrderedField α] (frame : List α) : ℕ → Option α
  | 0 => some 1
  | t + 1 =>
      if yinRunningSum frame (t + 1) = 0 then none
      else some (yinDiff frame (t + 1) / (yinRunningSum frame (t + 1) / ((t + 1 : ℕ) : α)))

/-- YIN pitch detection on one frame (ProsodyAnalyzer.yinPitchDetection):
squared difference function, cumulative mean normalized difference
function, absolute threshold 0.1 search with descent to the local
minimum, parabolic interpolation of the lag, then sampleRate / lag;
returns 0 when no lag under the search range passes the threshold. -/
def yinPitchDetection {α : Type} [LinearOrderedField α]
    (frame : List α) (sampleRate : ℕ) (minLag maxLag : ℕ) : α :=
  let threshold : α := 1 / 10
  let cmndf := yinCmndf frame
  let tau := yinSearch cmndf threshold maxLag minLag
  if maxLag - 1 ≤ tau ∨ jsGeO (cmndf tau) threshold = true then 0
  else
    let s0 := (cmndf (tau - 1)).getD 0
    let s1 := (cmndf tau).getD 0
    let s2 := (cmndf (tau + 1)).getD 0
    let betterTau := (tau : α) + (s2 - s0) / (2 * (2 * s1 - s2 - s0))
    (sampleRate : α) / betterTau

/-- F0 contour extraction (ProsodyAnalyzer.extractF0Contour): 25 ms
frames advanced by 10 ms hops, YIN on each frame with the lag search
range [sampleRate/400, sampleRate/50]. -/
def extractF0Contour {α : Type} [LinearOrderedField α]
    (samples : List α) (sampleRate : ℕ) : F0Contour α :=
  let frameSize := sampleRate * 25 / 1000
  let hopSize := sampleRate * 10 / 1000
  let minLag := sampleRate / 400
  let maxLag := sampleRate / 50
  let starts := frameStarts samples.length frameSize hopSize 0
  { values := starts.map (fun i =>
      yinPitchDetection (sliceJS samples i (i + frameSize)) sampleRate minLag maxLag),
    times := starts.map (fun i : ℕ => (i : α) / (sampleRate : α)),
    frameRate := 1000 / 10 }

/-! Resonance extractor (ProsodyAnalyzer.extractFormants and helpers).
These definitions call the transcendental library functions of the JS
runtime (Math.cos, Math.atan2, Math.log, Math.sqrt) and are therefore
modelled over the real numbers. -/

/-- Hamming window (ProsodyAnalyzer.applyHammingWindow). -/
noncomputable def applyHammingWindow (frame : List ℝ) : List ℝ :=
  let n := frame.length
  (List.range n).map (fun i =>
    frame.getD i 0 * (54 / 100 - 46 / 100 * Real.cos (2 * Real.pi * i / ((n - 1 : ℕ) : ℝ))))

/-- First order pre-emphasis filter (ProsodyAnalyzer.preEmphasis). -/
noncomputable def preEmphasis (samples : List ℝ) (coeff : ℝ := 97 / 100) : List ℝ :=
  (List.range samples.length).map (fun i =>
    if i = 0 then samples.getD 0 0 else samples.getD i 0 - coeff * samples.getD (i - 1) 0)

/-- Autocorrelation for lags 0..order-1 (ProsodyAnalyzer.autocorrelation). -/
noncomputable def autocorrelation (samples : List ℝ) (order : ℕ) : List ℝ :=
  (List.range order).map (fun i =>
    ((List.range (samples.length - i)).map (fun j =>
      samples.getD j 0 * samples.getD (j + i) 0)).sum)

/-- One order raising step of the Levinson-Durbin recursion: the state is
the coefficient vector a[0..order] and the current prediction error. -/
noncomputable def levinsonStep (r : List ℝ) (order : ℕ) (st : List ℝ × ℝ) (i : ℕ) : List ℝ × ℝ :=
  let a := st.1
  let e := st.2
  let lambda := -(((List.range i).map (fun j => a.getD j 0 * r.getD (i - j) 0)).sum) / e
  let aNew := (List.range (order + 1)).map (fun j =>
    if 1 ≤ j ∧ j ≤ i then a.getD j 0 + lambda * a.getD (i - j) 0 else a.getD j 0)
  (aNew, (1 - lambda * lambda) * e)

/-- Levinson-Durbin recursion producing the LPC coefficients a[0..order]
with a[0] = 1 (ProsodyAnalyzer.levinson). -/
noncomputable def levinson (r : List ℝ) (order : ℕ) : List ℝ :=
  (((List.range order).map (· + 1)).foldl (levinsonStep r order)
    (1 :: List.replicate order 0, r.getD 0 0)).1

/-- Complex number as the JS root records {real, imag}. -/
structure Cplx where
  real : ℝ
  imag : ℝ

/-- Complex multiplication (ProsodyAnalyzer.complexMul). -/
noncomputable def complexMul (a b : Cplx) : Cplx :=
  ⟨a.real * b.real - a.imag * b.imag, a.real * b.imag + a.imag * b.real⟩

/-- Complex division (ProsodyAnalyzer.complexDiv). -/
noncomputable def complexDiv (a b : Cplx) : Cplx :=
  let denom := b.real * b.real + b.imag * b.imag
  ⟨(a.real * b.real + a.imag * b.imag) / denom, (a.imag * b.real - a.real * b.imag) / denom⟩

/-- Horner-free polynomial evaluation accumulating successive powers of z
(ProsodyAnalyzer.evaluatePolynomial). -/
noncomputable def evaluatePolynomial (coeffs : List ℝ) (z : Cplx) : Cplx :=
  (coeffs.foldl (fun (st : Cplx × Cplx) c =>
    (⟨st.1.real + c * st.2.real, st.1.imag + c * st.2.imag⟩, complexMul st.2 z)) (⟨0, 0⟩, ⟨1, 0⟩)).1

/-- One sweep of the Durand-Kerner iteration: every root is updated in
sequence against the current estimates of all the others. -/
noncomputable def durandKernerSweep (coeffs : List ℝ) (roots : List Cplx) : List Cplx :=
  (List.range roots.length).foldl (fun rs i =>
    let ri := rs.getD i ⟨0, 0⟩
    let p := evaluatePolynomial coeffs ri
    let denom := (List.range rs.length).foldl (fun d j =>
      if i = j then d
      else complexMul d ⟨ri.real - (rs.getD j ⟨0, 0⟩).real, ri.imag - (rs.getD j ⟨0, 0⟩).imag⟩)
      ⟨1, 0⟩
    let correction := complexDiv p denom
    rs.set i ⟨ri.real - correction.real, ri.imag - correction.imag⟩) roots

/-- Durand-Kerner root finder (ProsodyAnalyzer.findPolynomialRoots):
coeffs.length - 1 starting points evenly spaced on the circle of radius
0.9, refined by 50 sequential-update sweeps. -/
@[irreducible] noncomputable def findPolynomialRoots (coeffs : List ℝ) : List Cplx :=
  let n := coeffs.length - 1
  let initial := (List.range n).map (fun i =>
    let angle := 2 * Real.pi * i / (n : ℝ)
    Cplx.mk (9 / 10 * Real.cos angle) (9 / 10 * Real.sin angle))
  (durandKernerSweep coeffs)^[50] initial

/-- Candidate formant frequency of a root, atan2(imag, real) * rate / 2pi
(atan2 is the argument of the complex number real + imag i). -/
noncomputable def rootFreq (root : Cplx) (sampleRate : ℕ) : ℝ :=
  Complex.arg ⟨root.real, root.imag⟩ * (sampleRate : ℝ) / (2 * Real.pi)

/-- Candidate bandwidth of a root, -ln |root| * rate / pi. -/
noncomputable def rootBandwidth (root : Cplx) (sampleRate : ℕ) : ℝ :=
  -Real.log (Real.sqrt (root.real * root.real + root.imag * root.imag)) *
    (sampleRate : ℝ) / Real.pi

/-- Formant candidate record {freq, bandwidth}. -/
structure FormantCand where
  freq : ℝ
  bandwidth : ℝ

/-- Surviving formant candidates of a root list: positive imaginary part,
frequency strictly between 200 and 5000 Hz, bandwidth strictly below
500 Hz (the filtering loop of ProsodyAnalyzer.lpcToFormants). -/
noncomputable def formantCandidates (roots : List Cplx) (sampleRate : ℕ) : List FormantCand :=
  roots.filterMap (fun root =>
    if 0 < root.imag then
      let freq := rootFreq root sampleRate
      let bandwidth := rootBandwidth root sampleRate
      if 200 < freq ∧ freq < 5000 ∧ bandwidth < 500 then some ⟨freq, bandwidth⟩ else none
    else none)

/-- Ascending-by-frequency order on formant candidates (the JS comparator
(a, b) => a.freq - b.freq). -/
def formantLe (a b : FormantCand) : Prop := a.freq ≤ b.freq

noncomputable instance : DecidableRel formantLe := fun a b => Real.decidableLE a.freq b.freq

instance : IsTotal FormantCand formantLe := ⟨fun a b => le_total a.freq b.freq⟩

instance : IsTrans FormantCand formantLe := ⟨fun _ _ _ h1 h2 => le_trans h1 h2⟩

/-- LPC coefficients to formants (ProsodyAnalyzer.lpcToFormants): find the
polynomial roots, keep the surviving candidates, sort them ascending by
frequency and return the first three frequencies.  The JS in place sort is
modelled by the stable insertionSort. -/
noncomputable def lpcToFormants (lpcCoeffs : List ℝ) (sampleRate : ℕ) : List ℝ :=
  let roots := findPolynomialRoots lpcCoeffs
  let formants := formantCandidates roots sampleRate
  ((formants.insertionSort formantLe).take 3).map (·.freq)

/-- LPC coefficients of the frame starting at sample i: Hamming window,
pre-emphasis, autocorrelation up to lag 12, Levinson-Durbin of order 12
(the per frame analysis chain of ProsodyAnalyzer.extractFormants). -/
noncomputable def frameLpcCoeffs (samples : List ℝ) (sampleRate : ℕ) (i : ℕ) : List ℝ :=
  let frameSize := sampleRate * 25 / 1000
  let frame := sliceJS samples i (i + frameSize)
  let windowed := applyHammingWindow frame
  let preEmph := preEmphasis windowed
  levinson (autocorrelation preEmph (12 + 1)) 12

/-- LPC formant list of the frame starting at sample i (the body of the
frame loop of ProsodyAnalyzer.extractFormants, lpcOrder 12). -/
noncomputable def frameFormants (samples : List ℝ) (sampleRate : ℕ) (i : ℕ) : List ℝ :=
  lpcToFormants (frameLpcCoeffs samples sampleRate i) sampleRate

/-- Formant contour extraction (ProsodyAnalyzer.extractFormants): per
frame LPC analysis; a missing formant slot is reported as 0 (the JS
expression formants[k] || 0), and each series carries the mean of its
positive entries. -/
noncomputable def extractFormants (samples : List ℝ) (sampleRate : ℕ) : FormantContour ℝ :=
  let frameSize := sampleRate * 25 / 1000
  let hopSize := sampleRate * 10 / 1000
  let starts := frameStarts samples.length frameSize hopSize 0
  let perFrame := starts.map (fun i => frameFormants samples sampleRate i)
  let f1Values := perFrame.map (fun f => f.getD 0 0)
  let f2Values := perFrame.map (fun f => f.getD 1 0)
  let f3Values := perFrame.map (fun f => f.getD 2 0)
  { f1 := ⟨f1Values, mean (f1Values.filter (fun v => 0 < v))⟩,
    f2 := ⟨f2Values, mean (f2Values.filter (fun v => 0 < v))⟩,
    f3 := ⟨f3Values, mean (f3Values.filter (fun v => 0 < v))⟩,
    times := starts.map (fun i : ℕ => (i : ℝ) / (sampleRate : ℝ)) }

/-- Intensity contour extraction (ProsodyAnalyzer.extractIntensity): per
frame RMS energy in dB, 20 log10(rms + 1e-10). -/
noncomputable def extractIntensity (samples : List ℝ) (sampleRate : ℕ) : IntensityContour ℝ :=
  let frameSize := sampleRate * 25 / 1000
  let hopSize := sampleRate * 10 / 1000
  let starts := frameStarts samples.length frameSize hopSize 0
  let values := starts.map (fun i =>
    let frame := sliceJS samples i (i + frameSize)
    let rms := Real.sqrt ((frame.map (fun x => x * x)).sum / (frame.length : ℝ))
    20 * Real.logb 10 (rms + 1 / 10000000000))
  { values := values,
    times := starts.map (fun i : ℕ => (i : ℝ) / (sampleRate : ℝ)),
    mean := mean values,
    range := listMax values - listMin values }

/-- Speaking rate estimation (ProsodyAnalyzer.estimateSpeakingRate):
smooth the intensity series with a 5 frame centered moving average, count
the local maxima exceeding the unsmoothed mean, divide by the buffer
duration in seconds. -/
noncomputable def estimateSpeakingRate (samples : List ℝ) (sampleRate : ℕ) : SpeakingRateData ℝ :=
  let intensity := extractIntensity samples sampleRate
  let smoothed := movingAverage intensity.values 5
  let peaks := ((List.range smoothed.length).drop 1).filter (fun i =>
    i < smoothed.length - 1 ∧
    smoothed.getD (i - 1) 0 < smoothed.getD i 0 ∧
    smoothed.getD (i + 1) 0 < smoothed.getD i 0 ∧
    intensity.mean < smoothed.getD i 0)
  let duration := (samples.length : ℝ) / (sampleRate : ℝ)
  { syllablesPerSecond := (peaks.length : ℝ) / duration,
    estimatedSyllables := peaks.length,
    duration := duration }

/-- Feature aggregation over one decoded buffer: the body of
ProsodyAnalyzer.analyzeAudio after decoding, including the pitch range
statistics over the voiced (positive) F0 values, absent when no frame is
voiced. -/
noncomputable def analyzeSamples (samples : List ℝ) (sampleRate : ℕ) : Features ℝ :=
  let f0 := extractF0Contour samples sampleRate
  let validF0 := f0.values.filter (fun v => 0 < v)
  { f0 := f0,
    formants := extractFormants samples sampleRate,
    intensity := extractIntensity samples sampleRate,
    duration := (samples.length : ℝ) / (sampleRate : ℝ),
    speakingRate := estimateSpeakingRate samples sampleRate,
    pitchRange :=
      if 0 < validF0.length then
        some ⟨listMin validF0, listMax validF0, mean validF0, calculateVariance validF0⟩
      else none }

/-- Modelled from the spec: the external decoder boundary.  The browser
decodeAudioData call used by analyzeAudio is an external collaborator
(spec section 6), not part of src; per spec sections 4.4 and 7 it fails
on an empty or undecodable buffer, and that failure is the
InvalidAudioError kind surfaced by analyzeAudio. -/
inductive InvalidAudioError
  | emptyBuffer
  | undecodable
deriving DecidableEq

/-- Decoded mono audio: samples plus sample rate, the decoder output. -/
structure DecodedAudio where
  samples : List ℝ
  sampleRate : ℕ

/-- Feature aggregator entry point (ProsodyAnalyzer.analyzeAudio): the
awaited decode result either fails, which propagates to the caller and
aborts the analysis of that buffer, or yields samples that are analyzed. -/
noncomputable def analyzeAudio (decoded : Except InvalidAudioError DecodedAudio) :
    Except InvalidAudioError (Features ℝ) :=
  match decoded with
  | .error e => .error e
  | .ok audio => .ok (analyzeSamples audio.samples audio.sampleRate)

/-- Prosody comparison (ProsodyAnalyzer.compareProsody): per dimension
similarity scores between two feature bundles and their fixed weighted
overall score. -/
def compareProsody {α : Type} [LinearOrderedField α] (targetFeatures userFeatures : Features α) :
    Scores α :=
  let f0Score := dtwSimilarity (targetFeatures.f0.values.filter (fun v => 0 < v))
    (userFeatures.f0.values.filter (fun v => 0 < v))
  let f1Similarity :=
    1 - min 1 (|targetFeatures.formants.f1.mean - userFeatures.formants.f1.mean| / 500)
  let f2Similarity :=
    1 - min 1 (|targetFeatures.formants.f2.mean - userFeatures.formants.f2.mean| / 800)
  let formantsScore := (f1Similarity + f2Similarity) / 2
  let intensityScore := dtwSimilarity (normalize targetFeatures.intensity.values)
    (normalize userFeatures.intensity.values)
  let rateDiff :=
    |targetFeatures.speakingRate.syllablesPerSecond - userFeatures.speakingRate.syllablesPerSecond|
  let speakingRateScore := max 0 (1 - rateDiff / 3)
  let pitchRangeScore :=
    match targetFeatures.pitchRange, userFeatures.pitchRange with
    | some tr, some ur =>
        max 0 (1 - |(tr.max - tr.min) - (ur.max - ur.min)| / 100)
    | _, _ => 1 / 2
  let durationScore := min (targetFeatures.duration / userFeatures.duration)
    (userFeatures.duration / targetFeatures.duration)
  { f0 := f0Score,
    formants := formantsScore,
    intensity := intensityScore,
    speakingRate := speakingRateScore,
    pitchRange := pitchRangeScore,
    duration := durationScore,
    overall := f0Score * (25 / 100) + formantsScore * (20 / 100) +
      intensityScore * (15 / 100) + speakingRateScore * (15 / 100) +
      pitchRangeScore * (15 / 100) + durationScore * (10 / 100) }

/-- Concrete rational feature bundle used by the C2 witness. -/
def demoBundleA : Features ℚ :=
  { f0 := ⟨[120, 0], [0, 1 / 100], 100⟩,
    formants := ⟨⟨[500], 500⟩, ⟨[1500], 1500⟩, ⟨[2500], 2500⟩, [0]⟩,
    intensity := ⟨[-20, -30], [0, 1 / 100], -25, 10⟩,
    duration := 2,
    speakingRate := ⟨3, 6, 2⟩,
    pitchRange := some ⟨110, 130, 120, 25⟩ }

/-- Concrete degenerate rational feature bundle used by the C2 witness. -/
def demoBundleB : Features ℚ :=
  { f0 := ⟨[], [], 100⟩,
    formants := ⟨⟨[], 0⟩, ⟨[], 0⟩, ⟨[], 0⟩, []⟩,
    intensity := ⟨[], [], 0, 0⟩,
    duration := 1,
    speakingRate := ⟨0, 0, 1⟩,
    pitchRange := none }

/-- Concrete rational bundle with no voiced frame, used by the C7
witness. -/
def demoUnvoicedBundle : Features ℚ :=
  { f0 := ⟨[0, 0], [0, 1 / 100], 100⟩,
    formants := ⟨⟨[], 0⟩, ⟨[], 0⟩, ⟨[], 0⟩, []⟩,
    intensity := ⟨[-200, -200], [0, 1 / 100], -200, 0⟩,
    duration := 2,
    speakingRate := ⟨0, 0, 2⟩,
    pitchRange := none }

/-- Concrete rational bundle with one voiced frame, used by the C7
witness. -/
def demoVoicedBundle : Features ℚ :=
  { f0 := ⟨[120], [0], 100⟩,
    formants := ⟨⟨[], 0⟩, ⟨[], 0⟩, ⟨[], 0⟩, []⟩,
    intensity := ⟨[-20], [0], -20, 0⟩,
    duration := 1,
    speakingRate := ⟨1, 1, 1⟩,
    pitchRange := some ⟨120, 120, 120, 0⟩ }

/-- Concrete six sample alternating buffer at 200 Hz used by the C1
witness; its single frame is periodic with period two samples, so the YIN
tracker reports it voiced. -/
def demoSquareSamples : List ℝ := [1, -1, 1, -1, 1, -1]

/-! Helper lemmas about the DTW machinery, shared by several of the
claim theorems below. -/

theorem dtwMat_nonneg {α : Type} [LinearOrderedField α] (a b : List α) :
    ∀ i j, 0 ≤ dtwMat a b i j := by
  intro i
  induction i with
  | zero =>
    intro j
    cases j with
    | zero => simp [dtwMat]
    | succ j => simp [dtwMat]
  | succ i ih =>
    intro j
    induction j with
    | zero => simp [dtwMat]
    | succ j ihj =>
      rw [dtwMat]
      have hc : (0 : WithTop α) ≤ ↑|a.getD i 0 - b.getD j 0| := by
        rw [← WithTop.coe_zero, WithTop.coe_le_coe]
        exact abs_nonneg _
      exact add_nonneg hc (le_min (ih (j + 1)) (le_min ihj (ih j)))

theorem dtwMat_self_diag {α : Type} [LinearOrderedField α] (a : List α) :
    ∀ k, dtwMat a a k k = 0 := by
  intro k
  induction k with
  | zero => simp [dtwMat]
  | succ k ih =>
    rw [dtwMat]
    have hmin : min (dtwMat a a k (k + 1)) (min (dtwMat a a (k + 1) k) (dtwMat a a k k)) = 0 := by
      refine le_antisymm ?_ ?_
      · exact le_trans (min_le_right _ _) (le_trans (min_le_right _ _) ih.le)
      · exact le_min (dtwMat_nonneg a a k (k + 1))
          (le_min (dtwMat_nonneg a a (k + 1) k) (dtwMat_nonneg a a k k))
    rw [hmin, sub_self, abs_zero, WithTop.coe_zero, zero_add]

theorem dtwMat_symm {α : Type} [LinearOrderedField α] (a b : List α) :
    ∀ i j, dtwMat a b i j = dtwMat b a j i := by
  intro i
  induction i with
  | zero =>
    intro j
    cases j with
    | zero => simp [dtwMat]
    | succ j => simp [dtwMat]
  | succ i ih =>
    intro j
    induction j with
    | zero => simp [dtwMat]
    | succ j ihj =>
      rw [dtwMat]
      conv_rhs => rw [dtwMat]
      rw [abs_sub_comm, ih (j + 1), ihj, ih j]
      congr 1
      rw [min_comm (dtwMat b a (j + 1) i) (min (dtwMat b a j (i + 1)) (dtwMat b a j i)),
        min_assoc, min_comm (dtwMat b a j i) (dtwMat b a (j + 1) i), ← min_assoc]

theorem dtwFinalize_coe {α : Type} [LinearOrderedField α] (q : α) (d : ℕ) :
    dtwFinalize (↑q : WithTop α) d = min 1 (q / (d : α)) := rfl

theorem dtwFinalize_nonneg {α : Type} [LinearOrderedField α]
    (c : WithTop α) (d : ℕ) (hc : 0 ≤ c) : 0 ≤ dtwFinalize c d := by
  cases c with
  | top => exact zero_le_one
  | coe q =>
    have hq : (0 : α) ≤ q := by
      rw [← WithTop.coe_zero, WithTop.coe_le_coe] at hc
      exact hc
    exact le_min zero_le_one (div_nonneg hq (Nat.cast_nonneg d))

theorem dtwFinalize_le_one {α : Type} [LinearOrderedField α]
    (c : WithTop α) (d : ℕ) : dtwFinalize c d ≤ 1 := by
  cases c with
  | top => exact le_refl 1
  | coe q => exact min_le_left _ _

theorem dtwSimilarity_nonneg {α : Type} [LinearOrderedField α] (seq1 seq2 : List α) :
    0 ≤ dtwSimilarity seq1 seq2 := by
  unfold dtwSimilarity
  split
  · exact le_refl 0
  · simp only [sub_nonneg]
    exact dtwFinalize_le_one _ _

theorem dtwSimilarity_le_one {α : Type} [LinearOrderedField α] (seq1 seq2 : List α) :
    dtwSimilarity seq1 seq2 ≤ 1 := by
  unfold dtwSimilarity
  split
  · exact zero_le_one
  · exact sub_le_self 1 (dtwFinalize_nonneg _ _ (dtwMat_nonneg _ _ _ _))

theorem dtwSimilarity_self {α : Type} [LinearOrderedField α] (s : List α) (h : s ≠ []) :
    dtwSimilarity s s = 1 := by
  unfold dtwSimilarity
  rw [if_neg]
  · dsimp only
    rw [dtwMat_self_diag]
    have : dtwFinalize (0 : WithTop α) (max (min s.length 100) (min s.length 100)) = 0 := by
      rw [← WithTop.coe_zero, dtwFinalize_coe, zero_div, min_eq_right zero_le_one]
    rw [this, sub_zero]
  · simp [List.length_eq_zero, h]

theorem dtwSimilarity_comm {α : Type} [LinearOrderedField α] (seq1 seq2 : List α) :
    dtwSimilarity seq1 seq2 = dtwSimilarity seq2 seq1 := by
  unfold dtwSimilarity
  dsimp only
  rw [dtwMat_symm, max_comm (min seq1.length 100) (min seq2.length 100)]
  exact if_congr or_comm rfl rfl

theorem dtwSimilarity_nil_left {α : Type} [LinearOrderedField α] (l : List α) :
    dtwSimilarity ([] : List α) l = 0 := by
  unfold dtwSimilarity
  rw [if_pos]
  exact Or.inl rfl

theorem dtwSimilarity_nil_right {α : Type} [LinearOrderedField α] (l : List α) :
    dtwSimilarity l ([] : List α) = 0 := by
  unfold dtwSimilarity
  rw [if_pos]
  exact Or.inr rfl

/-! Projection lemmas for compareProsody, definitional unfoldings of the
score fields. -/

theorem compareProsody_f0 {α : Type} [LinearOrderedField α] (t u : Features α) :
    (compareProsody t u).f0 =
      dtwSimilarity (t.f0.values.filter (fun v => 0 < v))
        (u.f0.values.filter (fun v => 0 < v)) := rfl

theorem compareProsody_formants {α : Type} [LinearOrderedField α] (t u : Features α) :
    (compareProsody t u).formants =
      ((1 - min 1 (|t.formants.f1.mean - u.formants.f1.mean| / 500)) +
        (1 - min 1 (|t.formants.f2.mean - u.formants.f2.mean| / 800))) / 2 := rfl

theorem compareProsody_intensity {α : Type} [LinearOrderedField α] (t u : Features α) :
    (compareProsody t u).intensity =
      dtwSimilarity (normalize t.intensity.values) (normalize u.intensity.values) := rfl

theorem compareProsody_speakingRate {α : Type} [LinearOrderedField α] (t u : Features α) :
    (compareProsody t u).speakingRate =
      max 0 (1 - |t.speakingRate.syllablesPerSecond - u.speakingRate.syllablesPerSecond| / 3) :=
  rfl

theorem compareProsody_pitchRange {α : Type} [LinearOrderedField α] (t u : Features α) :
    (compareProsody t u).pitchRange =
      match t.pitchRange, u.pitchRange with
      | some tr, some ur => max 0 (1 - |(tr.max - tr.min) - (ur.max - ur.min)| / 100)
      | _, _ => 1 / 2 := rfl

theorem compareProsody_duration {α : Type} [LinearOrderedField α] (t u : Features α) :
    (compareProsody t u).duration =
      min (t.duration / u.duration) (u.duration / t.duration) := rfl

theorem compareProsody_overall {α : Type} [LinearOrderedField α] (t u : Features α) :
    (compareProsody t u).overall =
      (compareProsody t u).f0 * (25 / 100) + (compareProsody t u).formants * (20 / 100) +
        (compareProsody t u).intensity * (15 / 100) +
        (compareProsody t u).speakingRate * (15 / 100) +
        (compareProsody t u).pitchRange * (15 / 100) +
        (compareProsody t u).duration * (10 / 100) := rfl

/-- C2: for every pair of valid feature bundles (both with positive total
duration, as analyzeAudio produces for any nonempty decoded buffer),
every field of the Score Set returned by compareProsody - f0, formants,
intensity, speakingRate, pitchRange, duration and overall - lies in the
interval [0, 1]. -/
theorem C2_score_range_invariant : ∀ (α : Type) [inst : LinearOrderedField α]
    (t u : Features α), 0 < t.duration → 0 < u.duration →
    (0 ≤ (compareProsody t u).f0 ∧ (compareProsody t u).f0 ≤ 1) ∧
    (0 ≤ (compareProsody t u).formants ∧ (compareProsody t u).formants ≤ 1) ∧
    (0 ≤ (compareProsody t u).intensity ∧ (compareProsody t u).intensity ≤ 1) ∧
    (0 ≤ (compareProsody t u).speakingRate ∧ (compareProsody t u).speakingRate ≤ 1) ∧
    (0 ≤ (compareProsody t u).pitchRange ∧ (compareProsody t u).pitchRange ≤ 1) ∧
    (0 ≤ (compareProsody t u).duration ∧ (compareProsody t u).duration ≤ 1) ∧
    (0 ≤ (compareProsody t u).overall ∧ (compareProsody t u).overall ≤ 1) := by
  intro α inst t u ht hu
  have hf0 : 0 ≤ (compareProsody t u).f0 ∧ (compareProsody t u).f0 ≤ 1 := by
    rw [compareProsody_f0]
    exact ⟨dtwSimilarity_nonneg _ _, dtwSimilarity_le_one _ _⟩
  have hfm : 0 ≤ (compareProsody t u).formants ∧ (compareProsody t u).formants ≤ 1 := by
    rw [compareProsody_formants]
    have h1a : min 1 (|t.formants.f1.mean - u.formants.f1.mean| / 500) ≤ 1 := min_le_left _ _
    have h1b : 0 ≤ min 1 (|t.formants.f1.mean - u.formants.f1.mean| / 500) :=
      le_min zero_le_one (div_nonneg (abs_nonneg _) (by norm_num))
    have h2a : min 1 (|t.formants.f2.mean - u.formants.f2.mean| / 800) ≤ 1 := min_le_left _ _
    have h2b : 0 ≤ min 1 (|t.formants.f2.mean - u.formants.f2.mean| / 800) :=
      le_min zero_le_one (div_nonneg (abs_nonneg _) (by norm_num))
    constructor <;> linarith
  have hin : 0 ≤ (compareProsody t u).intensity ∧ (compareProsody t u).intensity ≤ 1 := by
    rw [compareProsody_intensity]
    exact ⟨dtwSimilarity_nonneg _ _, dtwSimilarity_le_one _ _⟩
  have hsr : 0 ≤ (compareProsody t u).speakingRate ∧ (compareProsody t u).speakingRate ≤ 1 := by
    rw [compareProsody_speakingRate]
    refine ⟨le_max_left _ _, max_le zero_le_one ?_⟩
    have : 0 ≤ |t.speakingRate.syllablesPerSecond - u.speakingRate.syllablesPerSecond| / 3 :=
      div_nonneg (abs_nonneg _) (by norm_num)
    linarith
  have hpr : 0 ≤ (compareProsody t u).pitchRange ∧ (compareProsody t u).pitchRange ≤ 1 := by
    rw [compareProsody_pitchRange]
    rcases t.pitchRange with _ | tr <;> rcases u.pitchRange with _ | ur
    · exact ⟨by norm_num, by norm_num⟩
    · exact ⟨by norm_num, by norm_num⟩
    · exact ⟨by norm_num, by norm_num⟩
    · refine ⟨le_max_left _ _, max_le zero_le_one ?_⟩
      have : 0 ≤ |(tr.max - tr.min) - (ur.max - ur.min)| / 100 :=
        div_nonneg (abs_nonneg _) (by norm_num)
      linarith
  have hdu : 0 ≤ (compareProsody t u).duration ∧ (compareProsody t u).duration ≤ 1 := by
    rw [compareProsody_duration]
    constructor
    · exact le_min (div_nonneg ht.le hu.le) (div_nonneg hu.le ht.le)
    · rcases le_total t.duration u.duration with h | h
      · exact le_trans (min_le_left _ _) ((div_le_one hu).2 h)
      · exact le_trans (min_le_right _ _) ((div_le_one ht).2 h)
  have hov : 0 ≤ (compareProsody t u).overall ∧ (compareProsody t u).overall ≤ 1 := by
    rw [compareProsody_overall]
    obtain ⟨a0, a1⟩ := hf0
    obtain ⟨b0, b1⟩ := hfm
    obtain ⟨c0, c1⟩ := hin
    obtain ⟨d0, d1⟩ := hsr
    obtain ⟨e0, e1⟩ := hpr
    obtain ⟨f0, f1⟩ := hdu
    constructor <;> nlinarith
  exact ⟨hf0, hfm, hin, hsr, hpr, hdu, hov⟩

/-- Witness for C2 at a concrete pair of rational feature bundles of
positive duration. -/
theorem C2_witness :
    (0 : ℚ) < demoBundleA.duration ∧ (0 : ℚ) < demoBundleB.duration ∧
    (0 ≤ (compareProsody demoBundleA demoBundleB).overall ∧
      (compareProsody demoBundleA demoBundleB).overall ≤ 1) :=
  ⟨by decide, by decide,
    (C2_score_range_invariant ℚ demoBundleA demoBundleB (by decide) (by decide)).2.2.2.2.2.2⟩

/-- C5: for every two nonempty numeric sequences dtwSimilarity lies in
[0, 1], and for every nonconstant sequence of length at least 2 the
similarity of the sequence with itself is exactly 1. -/
theorem C5_dtw_bounds_and_self : ∀ (α : Type) [inst : LinearOrderedField α],
    (∀ seq1 seq2 : List α, seq1 ≠ [] → seq2 ≠ [] →
      0 ≤ dtwSimilarity seq1 seq2 ∧ dtwSimilarity seq1 seq2 ≤ 1) ∧
    (∀ s : List α, 2 ≤ s.length → (∃ x ∈ s, ∃ y ∈ s, x ≠ y) →
      dtwSimilarity s s = 1) := by
  intro α inst
  refine ⟨fun seq1 seq2 _ _ => ⟨dtwSimilarity_nonneg seq1 seq2, dtwSimilarity_le_one seq1 seq2⟩,
    fun s hs _ => dtwSimilarity_self s ?_⟩
  intro he
  rw [he] at hs
  simp at hs

/-- Witness for C5 at concrete rational sequences. -/
theorem C5_witness :
    (0 ≤ dtwSimilarity [(0 : ℚ), 1] [(2 : ℚ)] ∧ dtwSimilarity [(0 : ℚ), 1] [(2 : ℚ)] ≤ 1) ∧
    dtwSimilarity [(0 : ℚ), 1] [(0 : ℚ), 1] = 1 :=
  ⟨(C5_dtw_bounds_and_self ℚ).1 [(0 : ℚ), 1] [(2 : ℚ)] (by decide) (by decide),
    (C5_dtw_bounds_and_self ℚ).2 [(0 : ℚ), 1] (by decide)
      ⟨0, by decide, 1, by decide, by decide⟩⟩

/-- C7: an empty input sequence on either side makes dtwSimilarity return
0, and in compareProsody an empty voiced-only F0 sequence on either side
makes the f0 score 0; both functions are total, so no exception can be
raised. -/
theorem C7_empty_sequence_zero : ∀ (α : Type) [inst : LinearOrderedField α],
    (∀ l : List α, dtwSimilarity ([] : List α) l = 0 ∧ dtwSimilarity l ([] : List α) = 0) ∧
    (∀ t u : Features α,
      t.f0.values.filter (fun v => 0 < v) = [] ∨ u.f0.values.filter (fun v => 0 < v) = [] →
      (compareProsody t u).f0 = 0) := by
  intro α inst
  refine ⟨fun l => ⟨dtwSimilarity_nil_left l, dtwSimilarity_nil_right l⟩, fun t u h => ?_⟩
  rw [compareProsody_f0]
  rcases h with h | h
  · rw [h]
    exact dtwSimilarity_nil_left _
  · rw [h]
    exact dtwSimilarity_nil_right _

/-- Witness for C7 at a concrete rational bundle with no voiced frame. -/
theorem C7_witness :
    (demoUnvoicedBundle.f0.values.filter (fun v => 0 < v) = [] ∨
      demoVoicedBundle.f0.values.filter (fun v => 0 < v) = []) ∧
    (compareProsody demoUnvoicedBundle demoVoicedBundle).f0 = 0 :=
  ⟨by decide, (C7_empty_sequence_zero ℚ).2 demoUnvoicedBundle demoVoicedBundle (by decide)⟩

/-- C10: compareProsody is symmetric in its two arguments; every per
dimension score and the overall score coincide under swapping the
bundles. -/
theorem C10_compareProsody_symmetric : ∀ (α : Type) [inst : LinearOrderedField α]
    (a b : Features α),
    (compareProsody a b).f0 = (compareProsody b a).f0 ∧
    (compareProsody a b).formants = (compareProsody b a).formants ∧
    (compareProsody a b).intensity = (compareProsody b a).intensity ∧
    (compareProsody a b).speakingRate = (compareProsody b a).speakingRate ∧
    (compareProsody a b).pitchRange = (compareProsody b a).pitchRange ∧
    (compareProsody a b).duration = (compareProsody b a).duration ∧
    (compareProsody a b).overall = (compareProsody b a).overall := by
  intro α inst a b
  have h1 : (compareProsody a b).f0 = (compareProsody b a).f0 := by
    rw [compareProsody_f0, compareProsody_f0]
    exact dtwSimilarity_comm _ _
  have h2 : (compareProsody a b).formants = (compareProsody b a).formants := by
    rw [compareProsody_formants, compareProsody_formants,
      abs_sub_comm a.formants.f1.mean b.formants.f1.mean,
      abs_sub_comm a.formants.f2.mean b.formants.f2.mean]
  have h3 : (compareProsody a b).intensity = (compareProsody b a).intensity := by
    rw [compareProsody_intensity, compareProsody_intensity]
    exact dtwSimilarity_comm _ _
  have h4 : (compareProsody a b).speakingRate = (compareProsody b a).speakingRate := by
    rw [compareProsody_speakingRate, compareProsody_speakingRate,
      abs_sub_comm a.speakingRate.syllablesPerSecond b.speakingRate.syllablesPerSecond]
  have h5 : (compareProsody a b).pitchRange = (compareProsody b a).pitchRange := by
    rw [compareProsody_pitchRange, compareProsody_pitchRange]
    rcases a.pitchRange with _ | ar <;> rcases b.pitchRange with _ | br
    · rfl
    · rfl
    · rfl
    · dsimp only
      rw [abs_sub_comm]
  have h6 : (compareProsody a b).duration = (compareProsody b a).duration := by
    rw [compareProsody_duration, compareProsody_duration]
    exact min_comm _ _
  have h7 : (compareProsody a b).overall = (compareProsody b a).overall := by
    rw [compareProsody_overall, compareProsody_overall, h1, h2, h3, h4, h5, h6]
  exact ⟨h1, h2, h3, h4, h5, h6, h7⟩

/-! Helper lemmas about the frame loop, the YIN tracker on silent input,
and projections of analyzeSamples. -/

theorem frameStarts_hop_zero (len fs i : ℕ) : frameStarts len fs 0 i = [] := by
  unfold frameStarts
  simp

theorem frameStarts_cons {hop : ℕ} (len fs i : ℕ) (hhop : hop ≠ 0) (h : i + fs < len) :
    frameStarts len fs hop i = i :: frameStarts len fs hop (i + hop) := by
  rw [frameStarts]
  rw [dif_neg hhop, dif_pos h]

theorem frameStarts_nil {hop : ℕ} (len fs i : ℕ) (h : ¬i + fs < len) :
    frameStarts len fs hop i = [] := by
  rw [frameStarts]
  by_cases hhop : hop = 0
  · rw [dif_pos hhop]
  · rw [dif_neg hhop, dif_neg h]

theorem frameStarts_getD {hop : ℕ} (len fs : ℕ) (hhop : hop ≠ 0) (i k : ℕ)
    (hk : k < (frameStarts len fs hop i).length) :
    (frameStarts len fs hop i).getD k 0 = i + k * hop := by
  by_cases h : i + fs < len
  · rw [frameStarts_cons len fs i hhop h] at hk ⊢
    cases k with
    | zero => simp
    | succ k =>
      simp only [List.getD_cons_succ]
      have hk2 : k < (frameStarts len fs hop (i + hop)).length := by
        simpa using hk
      rw [frameStarts_getD len fs hhop (i + hop) k hk2]
      ring
  · rw [frameStarts_nil len fs i h] at hk
    simp at hk
termination_by len - i
decreasing_by omega

theorem frameStarts_fs_lt_len {hop : ℕ} (len fs : ℕ)
    (h : frameStarts len fs hop 0 ≠ []) : fs < len ∧ hop ≠ 0 := by
  by_cases hhop : hop = 0
  · subst hhop
    exact absurd (frameStarts_hop_zero len fs 0) h
  · by_cases hlt : 0 + fs < len
    · exact ⟨by omega, hhop⟩
    · exact absurd (frameStarts_nil len fs 0 hlt) h

theorem getD_replicate_zero {α : Type} [LinearOrderedField α] (m i : ℕ) :
    (List.replicate m (0 : α)).getD i 0 = 0 := by
  rcases lt_or_ge i m with h | h
  · rw [List.getD_eq_getElem _ _ (by simpa using h)]
    simp
  · exact List.getD_eq_default _ _ (by simpa using h)

theorem yinDiff_replicate_zero {α : Type} [LinearOrderedField α] (m tau : ℕ) :
    yinDiff (List.replicate m (0 : α)) tau = 0 := by
  unfold yinDiff
  apply List.sum_eq_zero
  intro x hx
  simp only [List.mem_map] at hx
  obtain ⟨i, _, rfl⟩ := hx
  simp [getD_replicate_zero]

theorem yinRunningSum_replicate_zero {α : Type} [LinearOrderedField α] (m tau : ℕ) :
    yinRunningSum (List.replicate m (0 : α)) tau = 0 := by
  unfold yinRunningSum
  apply List.sum_eq_zero
  intro x hx
  simp only [List.mem_map] at hx
  obtain ⟨i, _, rfl⟩ := hx
  exact yinDiff_replicate_zero m (i + 1)

theorem yinCmndf_replicate_zero_unvoiced {α : Type} [LinearOrderedField α] (m : ℕ) :
    ∀ tau, jsLtO (yinCmndf (List.replicate m (0 : α)) tau) (1 / 10) = false := by
  intro tau
  cases tau with
  | zero =>
    simp only [yinCmndf, jsLtO]
    rw [decide_eq_false]
    norm_num
  | succ t =>
    rw [yinCmndf, if_pos (yinRunningSum_replicate_zero m (t + 1))]
    rfl

theorem yinSearch_all_unvoiced {α : Type} [LinearOrderedField α] (c : ℕ → Option α)
    (threshold : α) (maxLag : ℕ) (hc : ∀ t, jsLtO (c t) threshold = false) (tau : ℕ) :
    maxLag - 1 ≤ yinSearch c threshold maxLag tau := by
  by_cases h : tau < maxLag - 1
  · rw [yinSearch, dif_pos h, hc tau]
    simp only [Bool.false_eq_true, if_false]
    exact yinSearch_all_unvoiced c threshold maxLag hc (tau + 1)
  · rw [yinSearch, dif_neg h]
    omega
termination_by maxLag - 1 - tau
decreasing_by omega

theorem yinPitchDetection_replicate_zero {α : Type} [LinearOrderedField α]
    (m sampleRate minLag maxLag : ℕ) :
    yinPitchDetection (List.replicate m (0 : α)) sampleRate minLag maxLag = 0 := by
  unfold yinPitchDetection
  dsimp only
  rw [if_pos]
  exact Or.inl (yinSearch_all_unvoiced _ _ _ (yinCmndf_replicate_zero_unvoiced m) minLag)

theorem sliceJS_replicate_zero {α : Type} [LinearOrderedField α] (n s e : ℕ) :
    sliceJS (List.replicate n (0 : α)) s e = List.replicate (min (e - s) (n - s)) (0 : α) := by
  unfold sliceJS
  rw [List.drop_replicate, List.take_replicate]

theorem extractF0Contour_zero_buffer {α : Type} [LinearOrderedField α] (n sampleRate : ℕ) :
    ∀ v ∈ (extractF0Contour (List.replicate n (0 : α)) sampleRate).values, v = 0 := by
  intro v hv
  unfold extractF0Contour at hv
  dsimp only at hv
  simp only [List.mem_map] at hv
  obtain ⟨i, _, rfl⟩ := hv
  rw [sliceJS_replicate_zero]
  exact yinPitchDetection_replicate_zero _ _ _ _

theorem analyzeSamples_f0 (samples : List ℝ) (sampleRate : ℕ) :
    (analyzeSamples samples sampleRate).f0 = extractF0Contour samples sampleRate := rfl

theorem analyzeSamples_formants (samples : List ℝ) (sampleRate : ℕ) :
    (analyzeSamples samples sampleRate).formants = extractFormants samples sampleRate := rfl

theorem analyzeSamples_intensity (samples : List ℝ) (sampleRate : ℕ) :
    (analyzeSamples samples sampleRate).intensity = extractIntensity samples sampleRate := rfl

theorem analyzeSamples_duration (samples : List ℝ) (sampleRate : ℕ) :
    (analyzeSamples samples sampleRate).duration = (samples.length : ℝ) / (sampleRate : ℝ) := rfl

theorem analyzeSamples_pitchRange_none (samples : List ℝ) (sampleRate : ℕ)
    (h : (extractF0Contour samples sampleRate).values.filter (fun v => 0 < v) = []) :
    (analyzeSamples samples sampleRate).pitchRange = none := by
  unfold analyzeSamples
  dsimp only
  rw [if_neg]
  rw [h]
  simp

theorem analyzeSamples_pitchRange_some (samples : List ℝ) (sampleRate : ℕ)
    (h : (extractF0Contour samples sampleRate).values.filter (fun v => 0 < v) ≠ []) :
    ∃ pr, (analyzeSamples samples sampleRate).pitchRange = some pr := by
  unfold analyzeSamples
  dsimp only
  rw [if_pos]
  · exact ⟨_, rfl⟩
  · simpa [List.length_pos] using h

theorem analyzeSamples_silent_all_zero (n sampleRate : ℕ) :
    ∀ v ∈ (analyzeSamples (List.replicate n (0 : ℝ)) sampleRate).f0.values, v = 0 :=
  extractF0Contour_zero_buffer n sampleRate

theorem analyzeSamples_silent_filter_nil (n sampleRate : ℕ) :
    (extractF0Contour (List.replicate n (0 : ℝ)) sampleRate).values.filter
      (fun v => 0 < v) = [] := by
  rw [List.filter_eq_nil_iff]
  intro a ha
  rw [extractF0Contour_zero_buffer n sampleRate a ha]
  simp

/-- C3: analyzeAudio fails when the input buffer is empty or cannot be
decoded to samples; the decode failure (the InvalidAudioError kind,
modelled from the spec since the decoder is an external collaborator) is
surfaced to the caller unchanged and no feature bundle is produced for
that buffer, while a successful decode is analyzed. -/
theorem C3_invalid_audio_error :
    (∀ e : InvalidAudioError, analyzeAudio (Except.error e) = Except.error e) ∧
    (analyzeAudio (Except.error InvalidAudioError.emptyBuffer) =
      Except.error InvalidAudioError.emptyBuffer) ∧
    (analyzeAudio (Except.error InvalidAudioError.undecodable) =
      Except.error InvalidAudioError.undecodable) ∧
    (∀ a : DecodedAudio,
      analyzeAudio (Except.ok a) = Except.ok (analyzeSamples a.samples a.sampleRate)) :=
  ⟨fun _ => rfl, rfl, rfl, fun _ => rfl⟩

/-- C4: for every all zero sample buffer, at every sample rate of at
least 100 Hz (below which the 10 ms hop is zero samples and the JS frame
loop would not terminate; decoded audio is always at least 8 kHz), every
value of the extracted F0 Contour is zero (entirely unvoiced) and the
bundle's pitch range statistics are absent; the embedding is total, so no
exception is raised. -/
theorem C4_silence_handling : ∀ (n sampleRate : ℕ), 100 ≤ sampleRate →
    (∀ v ∈ (analyzeSamples (List.replicate n (0 : ℝ)) sampleRate).f0.values, v = 0) ∧
    (analyzeSamples (List.replicate n (0 : ℝ)) sampleRate).pitchRange = none := by
  intro n sampleRate _
  exact ⟨analyzeSamples_silent_all_zero n sampleRate,
    analyzeSamples_pitchRange_none _ _ (analyzeSamples_silent_filter_nil n sampleRate)⟩

/-- Witness for C4: the all zero buffer of five samples at 100 Hz. -/
theorem C4_witness :
    100 ≤ 100 ∧
    ((∀ v ∈ (analyzeSamples (List.replicate 5 (0 : ℝ)) 100).f0.values, v = 0) ∧
      (analyzeSamples (List.replicate 5 (0 : ℝ)) 100).pitchRange = none) :=
  ⟨by decide, C4_silence_handling 5 100 (by decide)⟩

theorem extractF0Contour_values_length {α : Type} [LinearOrderedField α]
    (samples : List α) (sampleRate : ℕ) :
    (extractF0Contour samples sampleRate).values.length =
      (frameStarts samples.length (sampleRate * 25 / 1000) (sampleRate * 10 / 1000) 0).length := by
  simp [extractF0Contour]

theorem extractIntensity_values_length (samples : List ℝ) (sampleRate : ℕ) :
    (extractIntensity samples sampleRate).values.length =
      (frameStarts samples.length (sampleRate * 25 / 1000) (sampleRate * 10 / 1000) 0).length := by
  simp [extractIntensity]

theorem extractFormants_values_length (samples : List ℝ) (sampleRate : ℕ) :
    (extractFormants samples sampleRate).f1.values.length =
      (frameStarts samples.length (sampleRate * 25 / 1000) (sampleRate * 10 / 1000) 0).length ∧
    (extractFormants samples sampleRate).f2.values.length =
      (frameStarts samples.length (sampleRate * 25 / 1000) (sampleRate * 10 / 1000) 0).length ∧
    (extractFormants samples sampleRate).f3.values.length =
      (frameStarts samples.length (sampleRate * 25 / 1000) (sampleRate * 10 / 1000) 0).length := by
  refine ⟨?_, ?_, ?_⟩ <;> simp [extractFormants]

theorem extract_times_eq (samples : List ℝ) (sampleRate : ℕ) :
    (extractF0Contour samples sampleRate).times = (extractFormants samples sampleRate).times ∧
    (extractFormants samples sampleRate).times = (extractIntensity samples sampleRate).times :=
  ⟨rfl, rfl⟩

/-- C6: for every sample buffer, at every sample rate of at least 100 Hz,
the F0 Contour, the Formant Contour (F1, F2, F3 series) and the Intensity
Contour extracted from the buffer have the same number of frames and
identical per frame time grids, and the k-th frame time is k hops of
floor(sampleRate * 10 / 1000) samples (the 10 ms hop of the 25 ms / 10 ms
grid) divided by the sample rate. -/
theorem C6_same_frame_grid : ∀ (samples : List ℝ) (sampleRate : ℕ), 100 ≤ sampleRate →
    ((extractF0Contour samples sampleRate).values.length =
        (extractFormants samples sampleRate).f1.values.length ∧
      (extractFormants samples sampleRate).f1.values.length =
        (extractFormants samples sampleRate).f2.values.length ∧
      (extractFormants samples sampleRate).f2.values.length =
        (extractFormants samples sampleRate).f3.values.length ∧
      (extractFormants samples sampleRate).f3.values.length =
        (extractIntensity samples sampleRate).values.length) ∧
    ((extractF0Contour samples sampleRate).times =
        (extractFormants samples sampleRate).times ∧
      (extractFormants samples sampleRate).times =
        (extractIntensity samples sampleRate).times) ∧
    (∀ k, k < (extractF0Contour samples sampleRate).times.length →
      (extractF0Contour samples sampleRate).times.getD k 0 =
        ((k * (sampleRate * 10 / 1000) : ℕ) : ℝ) / (sampleRate : ℝ)) := by
  intro samples sampleRate h100
  obtain ⟨hf1, hf2, hf3⟩ := extractFormants_values_length samples sampleRate
  refine ⟨⟨?_, ?_, ?_, ?_⟩, extract_times_eq samples sampleRate, ?_⟩
  · rw [extractF0Contour_values_length, hf1]
  · rw [hf1, hf2]
  · rw [hf2, hf3]
  · rw [hf3, extractIntensity_values_length]
  · intro k hk
    have hhop : sampleRate * 10 / 1000 ≠ 0 := by omega
    have htimes : (extractF0Contour samples sampleRate).times =
        (frameStarts samples.length (sampleRate * 25 / 1000) (sampleRate * 10 / 1000) 0).map
          (fun i : ℕ => (i : ℝ) / (sampleRate : ℝ)) := rfl
    rw [htimes] at hk ⊢
    rw [List.length_map] at hk
    have hstart := frameStarts_getD samples.length (sampleRate * 25 / 1000) hhop 0 k hk
    rw [List.getD_eq_getElem _ _ (by simpa using hk), List.getElem_map,
      ← List.getD_eq_getElem _ 0 hk, hstart]
    norm_num

/-- Witness for C6 at a concrete buffer and sample rate. -/
theorem C6_witness :
    100 ≤ 44100 ∧
    (((extractF0Contour [(1 : ℝ), -1, 1] 44100).values.length =
        (extractFormants [(1 : ℝ), -1, 1] 44100).f1.values.length ∧
      (extractFormants [(1 : ℝ), -1, 1] 44100).f1.values.length =
        (extractFormants [(1 : ℝ), -1, 1] 44100).f2.values.length ∧
      (extractFormants [(1 : ℝ), -1, 1] 44100).f2.values.length =
        (extractFormants [(1 : ℝ), -1, 1] 44100).f3.values.length ∧
      (extractFormants [(1 : ℝ), -1, 1] 44100).f3.values.length =
        (extractIntensity [(1 : ℝ), -1, 1] 44100).values.length) ∧
    ((extractF0Contour [(1 : ℝ), -1, 1] 44100).times =
        (extractFormants [(1 : ℝ), -1, 1] 44100).times ∧
      (extractFormants [(1 : ℝ), -1, 1] 44100).times =
        (extractIntensity [(1 : ℝ), -1, 1] 44100).times) ∧
    (∀ k, k < (extractF0Contour [(1 : ℝ), -1, 1] 44100).times.length →
      (extractF0Contour [(1 : ℝ), -1, 1] 44100).times.getD k 0 =
        ((k * (44100 * 10 / 1000) : ℕ) : ℝ) / (44100 : ℝ))) :=
  ⟨by decide, C6_same_frame_grid [(1 : ℝ), -1, 1] 44100 (by decide)⟩

/-! Helper lemmas for the formant selection logic (claim C8). -/

theorem mem_formantCandidates {roots : List Cplx} {sampleRate : ℕ} {c : FormantCand}
    (hc : c ∈ formantCandidates roots sampleRate) :
    200 < c.freq ∧ c.freq < 5000 ∧ c.bandwidth < 500 ∧
      ∃ root ∈ roots, 0 < root.imag ∧ c.freq = rootFreq root sampleRate ∧
        c.bandwidth = rootBandwidth root sampleRate := by
  unfold formantCandidates at hc
  rw [List.mem_filterMap] at hc
  obtain ⟨root, hroot, heq⟩ := hc
  dsimp only at heq
  by_cases him : 0 < root.imag
  · rw [if_pos him] at heq
    by_cases hcond : 200 < rootFreq root sampleRate ∧ rootFreq root sampleRate < 5000 ∧
        rootBandwidth root sampleRate < 500
    · rw [if_pos hcond] at heq
      obtain ⟨h1, h2, h3⟩ := hcond
      cases heq
      exact ⟨h1, h2, h3, root, hroot, him, rfl, rfl⟩
    · rw [if_neg hcond] at heq
      cases heq
  · rw [if_neg him] at heq
    cases heq

theorem lpcToFormants_sorted_take (lpcCoeffs : List ℝ) (sampleRate : ℕ) :
    ∃ l : List FormantCand, l.Perm (formantCandidates (findPolynomialRoots lpcCoeffs) sampleRate) ∧
      l.Sorted formantLe ∧
      lpcToFormants lpcCoeffs sampleRate = (l.take 3).map (·.freq) :=
  ⟨(formantCandidates (findPolynomialRoots lpcCoeffs) sampleRate).insertionSort formantLe,
    List.perm_insertionSort _ _, List.sorted_insertionSort _ _, rfl⟩

theorem mem_lpcToFormants {lpcCoeffs : List ℝ} {sampleRate : ℕ} {v : ℝ}
    (hv : v ∈ lpcToFormants lpcCoeffs sampleRate) :
    ∃ c ∈ formantCandidates (findPolynomialRoots lpcCoeffs) sampleRate, v = c.freq := by
  unfold lpcToFormants at hv
  dsimp only at hv
  rw [List.mem_map] at hv
  obtain ⟨c, hc, rfl⟩ := hv
  refine ⟨c, ?_, rfl⟩
  exact (List.perm_insertionSort formantLe _).mem_iff.1 (List.mem_of_mem_take hc)

theorem lpcToFormants_sorted (lpcCoeffs : List ℝ) (sampleRate : ℕ) :
    List.Sorted (· ≤ ·) (lpcToFormants lpcCoeffs sampleRate) := by
  have hs : List.Sorted formantLe
      ((formantCandidates (findPolynomialRoots lpcCoeffs) sampleRate).insertionSort formantLe) :=
    List.sorted_insertionSort _ _
  have ht := hs.sublist (List.take_sublist 3 _)
  exact (List.pairwise_map).2 (ht.imp (fun h => h))

theorem lpcToFormants_length_le (lpcCoeffs : List ℝ) (sampleRate : ℕ) :
    (lpcToFormants lpcCoeffs sampleRate).length ≤ 3 := by
  unfold lpcToFormants
  dsimp only
  rw [List.length_map]
  exact List.length_take_le 3 _

theorem lpcToFormants_mem_ne_zero {lpcCoeffs : List ℝ} {sampleRate : ℕ} {v : ℝ}
    (hv : v ∈ lpcToFormants lpcCoeffs sampleRate) : v ≠ 0 := by
  obtain ⟨c, hc, rfl⟩ := mem_lpcToFormants hv
  have h := (mem_formantCandidates hc).1
  intro h0
  rw [h0] at h
  norm_num at h

theorem padded_filter_eq {l : List ℝ} (hlen : l.length ≤ 3) (hnz : ∀ v ∈ l, v ≠ 0) :
    [l.getD 0 0, l.getD 1 0, l.getD 2 0].filter (fun v => v ≠ 0) = l := by
  match l, hlen with
  | [], _ => simp
  | [a], _ =>
    have ha := hnz a (by simp)
    simp [ha]
  | [a, b], _ =>
    have ha := hnz a (by simp)
    have hb := hnz b (by simp)
    simp [ha, hb]
  | [a, b, c], _ =>
    have ha := hnz a (by simp)
    have hb := hnz b (by simp)
    have hc := hnz c (by simp)
    simp [ha, hb, hc]

theorem getD_zero_or_mem (l : List ℝ) (i : ℕ) : l.getD i 0 = 0 ∨ l.getD i 0 ∈ l := by
  rcases lt_or_ge i l.length with h | h
  · right
    rw [List.getD_eq_getElem _ _ h]
    exact List.getElem_mem h
  · left
    exact List.getD_eq_default _ _ h

theorem extractFormants_values_getD (samples : List ℝ) (sampleRate k : ℕ)
    (hk : k < (extractFormants samples sampleRate).f1.values.length) :
    (extractFormants samples sampleRate).f1.values.getD k 0 =
      (frameFormants samples sampleRate
        ((frameStarts samples.length (sampleRate * 25 / 1000) (sampleRate * 10 / 1000) 0).getD
          k 0)).getD 0 0 ∧
    (extractFormants samples sampleRate).f2.values.getD k 0 =
      (frameFormants samples sampleRate
        ((frameStarts samples.length (sampleRate * 25 / 1000) (sampleRate * 10 / 1000) 0).getD
          k 0)).getD 1 0 ∧
    (extractFormants samples sampleRate).f3.values.getD k 0 =
      (frameFormants samples sampleRate
        ((frameStarts samples.length (sampleRate * 25 / 1000) (sampleRate * 10 / 1000) 0).getD
          k 0)).getD 2 0 := by
  have hlen : (extractFormants samples sampleRate).f1.values.length =
      (frameStarts samples.length (sampleRate * 25 / 1000) (sampleRate * 10 / 1000) 0).length :=
    (extractFormants_values_length samples sampleRate).1
  have hks : k <
      (frameStarts samples.length (sampleRate * 25 / 1000) (sampleRate * 10 / 1000) 0).length := by
    rw [← hlen]
    exact hk
  have h1 : (extractFormants samples sampleRate).f1.values =
      ((frameStarts samples.length (sampleRate * 25 / 1000) (sampleRate * 10 / 1000) 0).map
        (fun i => frameFormants samples sampleRate i)).map (fun f => f.getD 0 0) := rfl
  have h2 : (extractFormants samples sampleRate).f2.values =
      ((frameStarts samples.length (sampleRate * 25 / 1000) (sampleRate * 10 / 1000) 0).map
        (fun i => frameFormants samples sampleRate i)).map (fun f => f.getD 1 0) := rfl
  have h3 : (extractFormants samples sampleRate).f3.values =
      ((frameStarts samples.length (sampleRate * 25 / 1000) (sampleRate * 10 / 1000) 0).map
        (fun i => frameFormants samples sampleRate i)).map (fun f => f.getD 2 0) := rfl
  refine ⟨?_, ?_, ?_⟩
  · rw [h1, List.getD_eq_getElem _ _ (by simpa using hks), List.getElem_map, List.getElem_map,
      ← List.getD_eq_getElem _ 0 hks]
  · rw [h2, List.getD_eq_getElem _ _ (by simpa using hks), List.getElem_map, List.getElem_map,
      ← List.getD_eq_getElem _ 0 hks]
  · rw [h3, List.getD_eq_getElem _ _ (by simpa using hks), List.getElem_map, List.getElem_map,
      ← List.getD_eq_getElem _ 0 hks]

theorem frameFormants_def (samples : List ℝ) (sampleRate i : ℕ) :
    frameFormants samples sampleRate i =
      lpcToFormants (frameLpcCoeffs samples sampleRate i) sampleRate := rfl

theorem lpc_triple_spec (co : List ℝ) (sampleRate : ℕ) :
    (∀ v ∈ [(lpcToFormants co sampleRate).getD 0 0, (lpcToFormants co sampleRate).getD 1 0,
        (lpcToFormants co sampleRate).getD 2 0],
      v = 0 ∨ ∃ c ∈ formantCandidates (findPolynomialRoots co) sampleRate,
        v = c.freq ∧ 200 < c.freq ∧ c.freq < 5000 ∧ c.bandwidth < 500 ∧
          ∃ root ∈ findPolynomialRoots co, 0 < root.imag ∧ c.freq = rootFreq root sampleRate ∧
            c.bandwidth = rootBandwidth root sampleRate) ∧
    List.Sorted (· ≤ ·)
      ([(lpcToFormants co sampleRate).getD 0 0, (lpcToFormants co sampleRate).getD 1 0,
        (lpcToFormants co sampleRate).getD 2 0].filter (fun v => v ≠ 0)) ∧
    (∃ l : List FormantCand, l.Perm (formantCandidates (findPolynomialRoots co) sampleRate) ∧
      l.Sorted formantLe ∧
      [(lpcToFormants co sampleRate).getD 0 0, (lpcToFormants co sampleRate).getD 1 0,
        (lpcToFormants co sampleRate).getD 2 0].filter (fun v => v ≠ 0) =
        (l.take 3).map (·.freq)) := by
  have hfil : [(lpcToFormants co sampleRate).getD 0 0, (lpcToFormants co sampleRate).getD 1 0,
      (lpcToFormants co sampleRate).getD 2 0].filter (fun v => v ≠ 0) =
      lpcToFormants co sampleRate :=
    padded_filter_eq (lpcToFormants_length_le co sampleRate)
      (fun _ hv => lpcToFormants_mem_ne_zero hv)
  refine ⟨?_, ?_, ?_⟩
  · intro v hv
    have h3 : v = 0 ∨ v ∈ lpcToFormants co sampleRate := by
      rcases List.mem_cons.mp hv with rfl | hv
      · exact getD_zero_or_mem (lpcToFormants co sampleRate) 0
      rcases List.mem_cons.mp hv with rfl | hv
      · exact getD_zero_or_mem (lpcToFormants co sampleRate) 1
      rcases List.mem_cons.mp hv with rfl | hv
      · exact getD_zero_or_mem (lpcToFormants co sampleRate) 2
      exact absurd hv (List.not_mem_nil v)
    rcases h3 with h0 | hin
    · exact Or.inl h0
    · obtain ⟨c, hc, rfl⟩ := mem_lpcToFormants hin
      obtain ⟨hb1, hb2, hb3, root, hr, hri, hrf, hrb⟩ := mem_formantCandidates hc
      exact Or.inr ⟨c, hc, rfl, hb1, hb2, hb3, root, hr, hri, hrf, hrb⟩
  · rw [hfil]
    exact lpcToFormants_sorted co sampleRate
  · obtain ⟨l, hperm, hsort, heq⟩ := lpcToFormants_sorted_take co sampleRate
    refine ⟨l, hperm, hsort, ?_⟩
    rw [hfil, heq]

/-- C8: for every analysis frame, each per frame formant value F1, F2, F3
produced by extractFormants is either 0 (missing slot) or the frequency of
a surviving candidate - a root with positive imaginary part whose
frequency lies strictly between 200 and 5000 Hz and whose bandwidth is
below 500 Hz; the nonzero values of the frame are sorted ascending by
frequency and are exactly the first three (lowest) frequencies of the
surviving candidates sorted ascending. -/
theorem C8_formant_selection : ∀ (samples : List ℝ) (sampleRate k : ℕ),
    k < (extractFormants samples sampleRate).f1.values.length →
    (∀ v ∈ [(extractFormants samples sampleRate).f1.values.getD k 0,
        (extractFormants samples sampleRate).f2.values.getD k 0,
        (extractFormants samples sampleRate).f3.values.getD k 0],
      v = 0 ∨ ∃ c ∈ formantCandidates (findPolynomialRoots (frameLpcCoeffs samples sampleRate
          ((frameStarts samples.length (sampleRate * 25 / 1000) (sampleRate * 10 / 1000) 0).getD
            k 0))) sampleRate,
        v = c.freq ∧ 200 < c.freq ∧ c.freq < 5000 ∧ c.bandwidth < 500 ∧
          ∃ root ∈ findPolynomialRoots (frameLpcCoeffs samples sampleRate
            ((frameStarts samples.length (sampleRate * 25 / 1000) (sampleRate * 10 / 1000) 0).getD
              k 0)), 0 < root.imag ∧ c.freq = rootFreq root sampleRate ∧
            c.bandwidth = rootBandwidth root sampleRate) ∧
    List.Sorted (· ≤ ·)
      ([(extractFormants samples sampleRate).f1.values.getD k 0,
        (extractFormants samples sampleRate).f2.values.getD k 0,
        (extractFormants samples sampleRate).f3.values.getD k 0].filter (fun v => v ≠ 0)) ∧
    (∃ l : List FormantCand, l.Perm (formantCandidates (findPolynomialRoots (frameLpcCoeffs samples sampleRate
        ((frameStarts samples.length (sampleRate * 25 / 1000) (sampleRate * 10 / 1000) 0).getD
          k 0))) sampleRate) ∧
      l.Sorted formantLe ∧
      [(extractFormants samples sampleRate).f1.values.getD k 0,
        (extractFormants samples sampleRate).f2.values.getD k 0,
        (extractFormants samples sampleRate).f3.values.getD k 0].filter (fun v => v ≠ 0) =
        (l.take 3).map (·.freq)) := by
  intro samples sampleRate k hk
  obtain ⟨e1, e2, e3⟩ := extractFormants_values_getD samples sampleRate k hk
  rw [e1, e2, e3, frameFormants_def]
  exact lpc_triple_spec (frameLpcCoeffs samples sampleRate
    ((frameStarts samples.length (sampleRate * 25 / 1000) (sampleRate * 10 / 1000) 0).getD k 0))
    sampleRate

/-- Witness for C8: the first frame of a three sample buffer at 100 Hz;
the sorted-ascending part of the conclusion is instantiated there. -/
theorem C8_witness :
    0 < (extractFormants (List.replicate 3 (0 : ℝ)) 100).f1.values.length ∧
    List.Sorted (· ≤ ·)
      ([(extractFormants (List.replicate 3 (0 : ℝ)) 100).f1.values.getD 0 0,
        (extractFormants (List.replicate 3 (0 : ℝ)) 100).f2.values.getD 0 0,
        (extractFormants (List.replicate 3 (0 : ℝ)) 100).f3.values.getD 0 0].filter
        (fun v => v ≠ 0)) := by
  have hlen : 0 < (extractFormants (List.replicate 3 (0 : ℝ)) 100).f1.values.length := by
    rw [(extractFormants_values_length (List.replicate 3 (0 : ℝ)) 100).1]
    rw [List.length_replicate]
    rw [show (100 * 25 / 1000 : ℕ) = 2 from rfl, show (100 * 10 / 1000 : ℕ) = 1 from rfl]
    rw [frameStarts_cons 3 2 0 one_ne_zero (by norm_num)]
    simp
  exact ⟨hlen, (C8_formant_selection (List.replicate 3 (0 : ℝ)) 100 0 hlen).2.1⟩

/-! Helper lemmas about comparing a bundle with itself (claim C1). -/

theorem compareProsody_self_formants {α : Type} [LinearOrderedField α] (b : Features α) :
    (compareProsody b b).formants = 1 := by
  rw [compareProsody_formants]
  simp only [sub_self, abs_zero, zero_div, min_eq_right zero_le_one, sub_zero]
  norm_num

theorem compareProsody_self_speakingRate {α : Type} [LinearOrderedField α] (b : Features α) :
    (compareProsody b b).speakingRate = 1 := by
  rw [compareProsody_speakingRate, sub_self, abs_zero, zero_div, sub_zero,
    max_eq_right zero_le_one]

theorem compareProsody_self_duration {α : Type} [LinearOrderedField α] (b : Features α)
    (h : b.duration ≠ 0) : (compareProsody b b).duration = 1 := by
  rw [compareProsody_duration, div_self h, min_self]

theorem compareProsody_self_pitchRange_none {α : Type} [LinearOrderedField α] (b : Features α)
    (h : b.pitchRange = none) : (compareProsody b b).pitchRange = 1 / 2 := by
  rw [compareProsody_pitchRange, h]

theorem compareProsody_self_pitchRange_some {α : Type} [LinearOrderedField α] (b : Features α)
    (pr : PitchRangeData α) (h : b.pitchRange = some pr) :
    (compareProsody b b).pitchRange = 1 := by
  rw [compareProsody_pitchRange, h]
  dsimp only
  rw [sub_self, abs_zero, zero_div, sub_zero, max_eq_right zero_le_one]

theorem compareProsody_self_f0_voiced {α : Type} [LinearOrderedField α] (b : Features α)
    (h : b.f0.values.filter (fun v => 0 < v) ≠ []) : (compareProsody b b).f0 = 1 := by
  rw [compareProsody_f0]
  exact dtwSimilarity_self _ h

theorem normalize_length {α : Type} [LinearOrderedField α] (arr : List α) :
    (normalize arr).length = arr.length := by
  unfold normalize
  dsimp only
  rw [List.length_map]

theorem compareProsody_self_intensity_nonempty {α : Type} [LinearOrderedField α]
    (b : Features α) (h : b.intensity.values ≠ []) : (compareProsody b b).intensity = 1 := by
  rw [compareProsody_intensity]
  apply dtwSimilarity_self
  intro he
  apply h
  have := congrArg List.length he
  rw [normalize_length] at this
  exact List.length_eq_zero.mp this

theorem silent_frameStarts : frameStarts 5 2 1 0 = [0, 1, 2] := by
  rw [frameStarts_cons 5 2 0 one_ne_zero (by norm_num), show (0 + 1 : ℕ) = 1 from rfl,
    frameStarts_cons 5 2 1 one_ne_zero (by norm_num), show (1 + 1 : ℕ) = 2 from rfl,
    frameStarts_cons 5 2 2 one_ne_zero (by norm_num), show (2 + 1 : ℕ) = 3 from rfl,
    frameStarts_nil 5 2 3 (by norm_num)]

theorem silent_intensity_ne_nil :
    (analyzeSamples (List.replicate 5 (0 : ℝ)) 100).intensity.values ≠ [] := by
  have hlen : (analyzeSamples (List.replicate 5 (0 : ℝ)) 100).intensity.values.length = 3 := by
    rw [analyzeSamples_intensity, extractIntensity_values_length,
      show (List.replicate 5 (0 : ℝ)).length = 5 from rfl,
      show (100 * 25 / 1000 : ℕ) = 2 from rfl, show (100 * 10 / 1000 : ℕ) = 1 from rfl,
      silent_frameStarts]
    rfl
  intro h
  rw [h] at hlen
  simp at hlen

theorem silent_duration_ne_zero :
    (analyzeSamples (List.replicate 5 (0 : ℝ)) 100).duration ≠ 0 := by
  rw [analyzeSamples_duration, show (List.replicate 5 (0 : ℝ)).length = 5 from rfl]
  norm_num

/-- Counterexample to C1 as stated: the bundle analyzeAudio produces for
the five sample all zero buffer at 100 Hz has no voiced frame, so its
self comparison scores f0 = 0 and pitchRange = 1/2, and the overall
score is 27/40 = 0.675 < 0.95. -/
theorem C1_counterexample :
    analyzeAudio (Except.ok ⟨List.replicate 5 (0 : ℝ), 100⟩) =
      Except.ok (analyzeSamples (List.replicate 5 (0 : ℝ)) 100) ∧
    (compareProsody (analyzeSamples (List.replicate 5 (0 : ℝ)) 100)
      (analyzeSamples (List.replicate 5 (0 : ℝ)) 100)).overall = 27 / 40 ∧
    ¬(95 / 100 ≤ (compareProsody (analyzeSamples (List.replicate 5 (0 : ℝ)) 100)
      (analyzeSamples (List.replicate 5 (0 : ℝ)) 100)).overall) := by
  have hpr : (analyzeSamples (List.replicate 5 (0 : ℝ)) 100).pitchRange = none :=
    analyzeSamples_pitchRange_none _ _ (analyzeSamples_silent_filter_nil 5 100)
  have hov : (compareProsody (analyzeSamples (List.replicate 5 (0 : ℝ)) 100)
      (analyzeSamples (List.replicate 5 (0 : ℝ)) 100)).overall = 27 / 40 := by
    rw [compareProsody_overall, compareProsody_f0, analyzeSamples_f0,
      analyzeSamples_silent_filter_nil 5 100, dtwSimilarity_nil_left,
      compareProsody_self_formants,
      compareProsody_self_intensity_nonempty _ silent_intensity_ne_nil,
      compareProsody_self_speakingRate,
      compareProsody_self_pitchRange_none _ hpr,
      compareProsody_self_duration _ silent_duration_ne_zero]
    norm_num
  refine ⟨rfl, hov, ?_⟩
  rw [hov]
  norm_num

/-- C1 (amended): for every feature bundle produced by analyzeAudio whose
voiced-only F0 sequence is nonempty (at least one voiced frame), comparing
the bundle with itself yields an overall score of at least 0.95 (in fact
exactly 1); bundles with no voiced frame score 0 on the f0 dimension and
fall to 0.675, as the counterexample shows. -/
theorem C1_self_similarity : ∀ (samples : List ℝ) (sampleRate : ℕ),
    (analyzeSamples samples sampleRate).f0.values.filter (fun v => 0 < v) ≠ [] →
    95 / 100 ≤ (compareProsody (analyzeSamples samples sampleRate)
      (analyzeSamples samples sampleRate)).overall := by
  intro samples sampleRate hv
  have hf0 := compareProsody_self_f0_voiced _ hv
  have hfm := compareProsody_self_formants (analyzeSamples samples sampleRate)
  have hsr := compareProsody_self_speakingRate (analyzeSamples samples sampleRate)
  have hvE : (extractF0Contour samples sampleRate).values.filter (fun v => 0 < v) ≠ [] := by
    rw [analyzeSamples_f0] at hv
    exact hv
  obtain ⟨pr, hpr⟩ := analyzeSamples_pitchRange_some samples sampleRate hvE
  have hprs := compareProsody_self_pitchRange_some _ pr hpr
  have hvals_ne : (extractF0Contour samples sampleRate).values ≠ [] := by
    intro h
    apply hvE
    rw [h]
    rfl
  have hstarts_ne :
      frameStarts samples.length (sampleRate * 25 / 1000) (sampleRate * 10 / 1000) 0 ≠ [] := by
    intro h
    apply hvals_ne
    have hl : (extractF0Contour samples sampleRate).values.length = 0 := by
      rw [extractF0Contour_values_length, h]
      rfl
    exact List.length_eq_zero.mp hl
  obtain ⟨hfs_lt, hhop⟩ := frameStarts_fs_lt_len _ _ hstarts_ne
  have hint_ne : (analyzeSamples samples sampleRate).intensity.values ≠ [] := by
    rw [analyzeSamples_intensity]
    intro h
    apply hstarts_ne
    have hl : (extractIntensity samples sampleRate).values.length = 0 := by
      rw [h]
      rfl
    rw [extractIntensity_values_length] at hl
    exact List.length_eq_zero.mp hl
  have hin := compareProsody_self_intensity_nonempty _ hint_ne
  have hdur_ne : (analyzeSamples samples sampleRate).duration ≠ 0 := by
    rw [analyzeSamples_duration]
    apply div_ne_zero
    · exact Nat.cast_ne_zero.mpr (by omega)
    · exact Nat.cast_ne_zero.mpr (by omega)
  have hdu := compareProsody_self_duration _ hdur_ne
  rw [compareProsody_overall, hf0, hfm, hin, hsr, hprs, hdu]
  norm_num

theorem demoSquare_yinDiff_one : yinDiff ([1, -1, 1, -1, 1] : List ℝ) 1 = 16 := by
  unfold yinDiff
  rw [show ([1, -1, 1, -1, 1] : List ℝ).length - 1 = 4 from rfl,
    show List.range 4 = [0, 1, 2, 3] from rfl]
  simp only [List.map_cons, List.map_nil, List.sum_cons, List.sum_nil]
  norm_num [show ([1, -1, 1, -1, 1] : List ℝ).getD 0 0 = 1 from rfl,
    show ([1, -1, 1, -1, 1] : List ℝ).getD 1 0 = -1 from rfl,
    show ([1, -1, 1, -1, 1] : List ℝ).getD 2 0 = 1 from rfl,
    show ([1, -1, 1, -1, 1] : List ℝ).getD 3 0 = -1 from rfl,
    show ([1, -1, 1, -1, 1] : List ℝ).getD 4 0 = 1 from rfl]

theorem demoSquare_yinDiff_two : yinDiff ([1, -1, 1, -1, 1] : List ℝ) 2 = 0 := by
  unfold yinDiff
  rw [show ([1, -1, 1, -1, 1] : List ℝ).length - 2 = 3 from rfl,
    show List.range 3 = [0, 1, 2] from rfl]
  simp only [List.map_cons, List.map_nil, List.sum_cons, List.sum_nil]
  norm_num [show ([1, -1, 1, -1, 1] : List ℝ).getD 0 0 = 1 from rfl,
    show ([1, -1, 1, -1, 1] : List ℝ).getD 1 0 = -1 from rfl,
    show ([1, -1, 1, -1, 1] : List ℝ).getD 2 0 = 1 from rfl,
    show ([1, -1, 1, -1, 1] : List ℝ).getD 3 0 = -1 from rfl,
    show ([1, -1, 1, -1, 1] : List ℝ).getD 4 0 = 1 from rfl]

theorem demoSquare_yinDiff_three : yinDiff ([1, -1, 1, -1, 1] : List ℝ) 3 = 8 := by
  unfold yinDiff
  rw [show ([1, -1, 1, -1, 1] : List ℝ).length - 3 = 2 from rfl,
    show List.range 2 = [0, 1] from rfl]
  simp only [List.map_cons, List.map_nil, List.sum_cons, List.sum_nil]
  norm_num [show ([1, -1, 1, -1, 1] : List ℝ).getD 0 0 = 1 from rfl,
    show ([1, -1, 1, -1, 1] : List ℝ).getD 1 0 = -1 from rfl,
    show ([1, -1, 1, -1, 1] : List ℝ).getD 3 0 = -1 from rfl,
    show ([1, -1, 1, -1, 1] : List ℝ).getD 4 0 = 1 from rfl]

theorem demoSquare_runningSum_one : yinRunningSum ([1, -1, 1, -1, 1] : List ℝ) 1 = 16 := by
  unfold yinRunningSum
  rw [show List.range 1 = [0] from rfl]
  simp only [List.map_cons, List.map_nil, List.sum_cons, List.sum_nil]
  rw [show (0 + 1 : ℕ) = 1 from rfl, demoSquare_yinDiff_one]
  norm_num

theorem demoSquare_runningSum_two : yinRunningSum ([1, -1, 1, -1, 1] : List ℝ) 2 = 16 := by
  unfold yinRunningSum
  rw [show List.range 2 = [0, 1] from rfl]
  simp only [List.map_cons, List.map_nil, List.sum_cons, List.sum_nil]
  rw [show (0 + 1 : ℕ) = 1 from rfl, show (1 + 1 : ℕ) = 2 from rfl,
    demoSquare_yinDiff_one, demoSquare_yinDiff_two]
  norm_num

theorem demoSquare_runningSum_three : yinRunningSum ([1, -1, 1, -1, 1] : List ℝ) 3 = 24 := by
  unfold yinRunningSum
  rw [show List.range 3 = [0, 1, 2] from rfl]
  simp only [List.map_cons, List.map_nil, List.sum_cons, List.sum_nil]
  rw [show (0 + 1 : ℕ) = 1 from rfl, show (1 + 1 : ℕ) = 2 from rfl,
    show (2 + 1 : ℕ) = 3 from rfl, demoSquare_yinDiff_one, demoSquare_yinDiff_two,
    demoSquare_yinDiff_three]
  norm_num

theorem demoSquare_cmndf_zero : yinCmndf ([1, -1, 1, -1, 1] : List ℝ) 0 = some 1 := rfl

theorem demoSquare_cmndf_one : yinCmndf ([1, -1, 1, -1, 1] : List ℝ) 1 = some 1 := by
  rw [show yinCmndf ([1, -1, 1, -1, 1] : List ℝ) 1 =
      (if yinRunningSum ([1, -1, 1, -1, 1] : List ℝ) 1 = 0 then none
       else some (yinDiff ([1, -1, 1, -1, 1] : List ℝ) 1 /
         (yinRunningSum ([1, -1, 1, -1, 1] : List ℝ) 1 / ((1 : ℕ) : ℝ)))) from rfl,
    demoSquare_runningSum_one, demoSquare_yinDiff_one, if_neg (by norm_num : ¬(16 : ℝ) = 0)]
  congr 1
  norm_num

theorem demoSquare_cmndf_two : yinCmndf ([1, -1, 1, -1, 1] : List ℝ) 2 = some 0 := by
  rw [show yinCmndf ([1, -1, 1, -1, 1] : List ℝ) 2 =
      (if yinRunningSum ([1, -1, 1, -1, 1] : List ℝ) 2 = 0 then none
       else some (yinDiff ([1, -1, 1, -1, 1] : List ℝ) 2 /
         (yinRunningSum ([1, -1, 1, -1, 1] : List ℝ) 2 / ((2 : ℕ) : ℝ)))) from rfl,
    demoSquare_runningSum_two, demoSquare_yinDiff_two, if_neg (by norm_num : ¬(16 : ℝ) = 0)]
  congr 1
  norm_num

theorem demoSquare_cmndf_three : yinCmndf ([1, -1, 1, -1, 1] : List ℝ) 3 = some 1 := by
  rw [show yinCmndf ([1, -1, 1, -1, 1] : List ℝ) 3 =
      (if yinRunningSum ([1, -1, 1, -1, 1] : List ℝ) 3 = 0 then none
       else some (yinDiff ([1, -1, 1, -1, 1] : List ℝ) 3 /
         (yinRunningSum ([1, -1, 1, -1, 1] : List ℝ) 3 / ((3 : ℕ) : ℝ)))) from rfl,
    demoSquare_runningSum_three, demoSquare_yinDiff_three, if_neg (by norm_num : ¬(24 : ℝ) = 0)]
  congr 1
  norm_num

theorem demoSquare_descend : yinDescend (yinCmndf ([1, -1, 1, -1, 1] : List ℝ)) 4 2 = 2 := by
  have hno : ¬(2 + 1 < 4 ∧
      jsLtOO (yinCmndf ([1, -1, 1, -1, 1] : List ℝ) (2 + 1))
        (yinCmndf ([1, -1, 1, -1, 1] : List ℝ) 2) = true) := by
    intro h
    have h2 := h.2
    rw [show (2 + 1 : ℕ) = 3 from rfl, demoSquare_cmndf_three, demoSquare_cmndf_two] at h2
    simp only [jsLtOO] at h2
    rw [decide_eq_false (by norm_num : ¬((1 : ℝ) < 0))] at h2
    exact Bool.noConfusion h2
  rw [yinDescend, dif_neg hno]

theorem demoSquare_search :
    yinSearch (yinCmndf ([1, -1, 1, -1, 1] : List ℝ)) (1 / 10 : ℝ) 4 0 = 2 := by
  have hlt0 : jsLtO (yinCmndf ([1, -1, 1, -1, 1] : List ℝ) 0) (1 / 10 : ℝ) = false := by
    rw [demoSquare_cmndf_zero]
    simp only [jsLtO]
    exact decide_eq_false (by norm_num)
  have hlt1 : jsLtO (yinCmndf ([1, -1, 1, -1, 1] : List ℝ) 1) (1 / 10 : ℝ) = false := by
    rw [demoSquare_cmndf_one]
    simp only [jsLtO]
    exact decide_eq_false (by norm_num)
  have hlt2 : jsLtO (yinCmndf ([1, -1, 1, -1, 1] : List ℝ) 2) (1 / 10 : ℝ) = true := by
    rw [demoSquare_cmndf_two]
    simp only [jsLtO]
    exact decide_eq_true (by norm_num)
  rw [yinSearch, dif_pos (by norm_num : (0 : ℕ) < 4 - 1), hlt0]
  simp only [Bool.false_eq_true, if_false]
  rw [show (0 + 1 : ℕ) = 1 from rfl, yinSearch, dif_pos (by norm_num : (1 : ℕ) < 4 - 1), hlt1]
  simp only [Bool.false_eq_true, if_false]
  rw [show (1 + 1 : ℕ) = 2 from rfl, yinSearch, dif_pos (by norm_num : (2 : ℕ) < 4 - 1), hlt2]
  rw [if_pos rfl]
  exact demoSquare_descend

theorem demoSquare_yin : yinPitchDetection ([1, -1, 1, -1, 1] : List ℝ) 200 0 4 = 100 := by
  have hnot : ¬(4 - 1 ≤ yinSearch (yinCmndf ([1, -1, 1, -1, 1] : List ℝ)) (1 / 10 : ℝ) 4 0 ∨
      jsGeO (yinCmndf ([1, -1, 1, -1, 1] : List ℝ)
        (yinSearch (yinCmndf ([1, -1, 1, -1, 1] : List ℝ)) (1 / 10 : ℝ) 4 0))
        (1 / 10 : ℝ) = true) := by
    rw [demoSquare_search]
    intro h
    rcases h with h | h
    · omega
    · rw [demoSquare_cmndf_two] at h
      simp only [jsGeO] at h
      rw [decide_eq_false (by norm_num : ¬((1 : ℝ) / 10 ≤ 0))] at h
      exact Bool.noConfusion h
  unfold yinPitchDetection
  dsimp only
  rw [if_neg hnot, demoSquare_search, show (2 + 1 : ℕ) = 3 from rfl,
    show (2 - 1 : ℕ) = 1 from rfl, demoSquare_cmndf_one, demoSquare_cmndf_two,
    demoSquare_cmndf_three]
  simp only [Option.getD_some]
  norm_num

theorem demoSquare_f0_values : (extractF0Contour demoSquareSamples 200).values = [100] := by
  unfold extractF0Contour
  dsimp only
  rw [show demoSquareSamples.length = 6 from rfl, show (200 * 25 / 1000 : ℕ) = 5 from rfl,
    show (200 * 10 / 1000 : ℕ) = 2 from rfl, show (200 / 400 : ℕ) = 0 from rfl,
    show (200 / 50 : ℕ) = 4 from rfl,
    frameStarts_cons 6 5 0 (by norm_num : (2 : ℕ) ≠ 0) (by norm_num),
    show (0 + 2 : ℕ) = 2 from rfl, frameStarts_nil 6 5 2 (by norm_num)]
  simp only [List.map_cons, List.map_nil]
  rw [show sliceJS demoSquareSamples 0 (0 + 5) = ([1, -1, 1, -1, 1] : List ℝ) from rfl,
    demoSquare_yin]

/-- Witness for the amended C1 at the concrete alternating buffer, whose
single frame is voiced. -/
theorem C1_witness :
    (analyzeSamples demoSquareSamples 200).f0.values.filter (fun v => 0 < v) ≠ [] ∧
    95 / 100 ≤ (compareProsody (analyzeSamples demoSquareSamples 200)
      (analyzeSamples demoSquareSamples 200)).overall := by
  have hne : (analyzeSamples demoSquareSamples 200).f0.values.filter (fun v => 0 < v) ≠ [] := by
    rw [analyzeSamples_f0, demoSquare_f0_values]
    intro h
    have hm : (100 : ℝ) ∈ ([(100 : ℝ)]).filter (fun v => 0 < v) :=
      List.mem_filter.mpr ⟨List.mem_singleton_self 100, decide_eq_true (by norm_num)⟩
    rw [h] at hm
    exact List.not_mem_nil _ hm
  exact ⟨hne, C1_self_similarity demoSquareSamples 200 hne⟩

end MirrorAccent
